import Mathlib

/-!
Shallow embedding of the chorded keyboard-shortcut dispatcher of the
llka-verwaltung repository.

Embedded source files:
* the dispatcher (KeyboardShortcutsProvider, handleKeyDown, resetSequence,
  getShortcutContext, register functions) from the keyboard-shortcuts hook;
* isInputFocused from src/lib/keyboard-shortcuts/input-detection.ts.

The registry module (SHORTCUT_REGISTRY / getShortcutsForKey) is not present
in the source tree; its lookup is modelled from the spec, see
getShortcutsForKey below.

Modelling conventions:
* the clock Date.now() is carried on each key event as an integer field now;
* setTimeout / clearTimeout are modelled by a pendingTimers list of armed,
  uncancelled timer ids plus the timeoutRef cell holding the id the
  dispatcher remembers, clearTimeout erases the id from pendingTimers;
* the toast library is modelled by a counter of toast ids and by effect
  records listing the toasts shown and the toast ids dismissed;
* a handler is a function from the shortcut context to Except: an error
  value models a thrown exception; the returned list of UIAction values
  models the observable calls the handler makes on the capability setters.
-/

namespace LlkaShortcuts

/-- Observable user-interface actions produced by capability setters and
handlers: opening or closing one of the four registered surfaces, or a
router navigation. -/
inductive UIAction where
  | commandMenuSet (b : Bool)
  | quickFindSet (b : Bool)
  | sequentialModeSet (b : Bool)
  | identityPickerSet (b : Bool)
  | navigate (path : String)
  deriving DecidableEq, Repr

/-- A modal-state setter as registered by a UI surface: source type
`(open: boolean) => void`; its observable behaviour is the list of UI
actions it performs. -/
def Setter : Type := Bool → List UIAction

/-- Default value of each modal-setter ref in the provider: the source
initialises every ref with `() => {}`. -/
def noopSetter : Setter := fun _ => []

/-- The router handed to handlers (abstract in this development). -/
structure Router where
  id : Nat
  deriving DecidableEq, Repr

/-- ShortcutContext from the registry module interface: the router plus the
four modal setters, as read by getShortcutContext. -/
structure ShortcutContext where
  router : Router
  setCommandMenuOpen : Setter
  setQuickFindOpen : Setter
  setSequentialModeOpen : Setter
  setIdentityPickerOpen : Setter

/-- A registry entry: `{ sequence: [string, string], description, handler }`.
A handler either returns normally with its observable UI actions, or throws
(modelled by Except.error). -/
structure Shortcut where
  sequence : String × String
  description : String
  handler : ShortcutContext → Except String (List UIAction)

/-- The chord registry, a list of entries. -/
abbrev Registry : Type := List Shortcut

/-- Modelled from the spec: getShortcutsForKey of the absent
src/lib/keyboard-shortcuts/shortcut-registry.ts. Spec section 4.2:
lookupByFirstKey(key) returns the sequence of entries whose first key is
key, empty if none. -/
def getShortcutsForKey (reg : Registry) (key : String) : List Shortcut :=
  reg.filter (fun s => s.sequence.1 == key)

/-- SequenceState from the dispatcher source: idle, or waiting with the
accepted first key, the timestamp of acceptance and the id of the
awaiting toast. -/
inductive SequenceState where
  | idle
  | waiting (firstKey : String) (timestamp : Int) (toastId : Nat)

/-- Source test for the status field being the waiting variant. -/
def SequenceState.isWaiting : SequenceState → Bool
  | .idle => false
  | .waiting _ _ _ => true

/-- The four modal-setter refs of the provider. -/
structure Caps where
  commandMenuOpen : Setter
  quickFindOpen : Setter
  sequentialModeOpen : Setter
  identityPickerOpen : Setter

/-- The mutable state of one mounted dispatcher: the sequence state, the
double-shift timestamp ref (0 meaning none), the timeoutRef cell, the set
of armed uncancelled timers, fresh-id counters, the setter refs and the
router. -/
structure DState where
  sequenceState : SequenceState
  lastShiftPress : Int
  timeoutRef : Option Nat
  pendingTimers : List Nat
  nextTimerId : Nat
  nextToastId : Nat
  caps : Caps
  router : Router

/-- Kinds of toast shown by the dispatcher. -/
inductive ToastKind where
  | awaiting (firstKey : String) (options : List (String × String))
  | success (description : String)
  | errorToast (message : String)

/-- Observable effects of processing one event: handlers invoked, the
context each was invoked with, toasts shown (with their ids), toast ids
dismissed, UI actions performed, and whether preventDefault was called. -/
structure Effects where
  invoked : List Shortcut
  invokedWith : List ShortcutContext
  toasts : List (Nat × ToastKind)
  dismissed : List Nat
  actions : List UIAction
  prevented : Bool

/-- The empty effect record. -/
def noEff : Effects :=
  { invoked := [], invokedWith := [], toasts := [], dismissed := [],
    actions := [], prevented := false }

/-- A keydown event together with the ambient data the handler reads while
processing it: the key, the modifier flags, the focused element (input of
isInputFocused) and the clock value Date.now(). -/
structure ActiveElement where
  tagName : String
  contenteditable : Option String
  role : Option String
  deriving DecidableEq, Repr

structure KeyEvent where
  key : String
  ctrlKey : Bool
  metaKey : Bool
  altKey : Bool
  shiftKey : Bool
  activeElement : Option ActiveElement
  now : Int
  deriving Repr

/-- isInputFocused from src/lib/keyboard-shortcuts/input-detection.ts,
over the currently focused element: INPUT and TEXTAREA tags, a
contenteditable attribute equal to "true", "" or "plaintext-only", or an
ARIA role of textbox. A missing attribute check falls through to the next
check, exactly as in the source. -/
def isInputFocused (activeElement : Option ActiveElement) : Bool :=
  match activeElement with
  | none => false
  | some el =>
    if el.tagName == "INPUT" || el.tagName == "TEXTAREA" then true
    else if (match el.contenteditable with
             | some v => v == "true" || v == "" || v == "plaintext-only"
             | none => false) then true
    else if el.role == some "textbox" then true
    else false

/-- The source expression `e.key.toLowerCase()`. Core String.toLower is
defined by well-founded recursion, which blocks kernel evaluation, so the
equivalent character-list map is used. -/
def lower (s : String) : String := { data := s.data.map Char.toLower }

/-- The source expression `s.toUpperCase()`, as a character-list map. -/
def upper (s : String) : String := { data := s.data.map Char.toUpper }

/-- SEQUENCE_TIMEOUT from the dispatcher source: 2000 ms. -/
def SEQUENCE_TIMEOUT : Int := 2000

/-- DOUBLE_SHIFT_TIMEOUT from the dispatcher source: 300 ms. -/
def DOUBLE_SHIFT_TIMEOUT : Int := 300

/-- getShortcutContext from the dispatcher source: builds the shortcut
context at call time from the router and the current values of the four
setter refs. -/
def getShortcutContext (st : DState) : ShortcutContext :=
  { router := st.router,
    setCommandMenuOpen := st.caps.commandMenuOpen,
    setQuickFindOpen := st.caps.quickFindOpen,
    setSequentialModeOpen := st.caps.sequentialModeOpen,
    setIdentityPickerOpen := st.caps.identityPickerOpen }

/-- The pending-timer list after `if (timeoutRef.current) clearTimeout(...)`:
the id held in timeoutRef is cancelled. -/
def clearTimeoutRef (st : DState) : List Nat :=
  match st.timeoutRef with
  | some t => st.pendingTimers.erase t
  | none => st.pendingTimers

/-- The source line `if (lastShiftPressRef.current > 0) lastShiftPressRef.current = 0`. -/
def clearShift (st : DState) : DState :=
  { st with lastShiftPress :=
      if st.lastShiftPress > 0 then 0 else st.lastShiftPress }

/-- resetSequence from the dispatcher source: dismiss the awaiting toast
when waiting, set the state to idle, and clear the armed timer if any.
Returns the new state together with the dismissed toast ids. -/
def resetSequence (st : DState) : DState × List Nat :=
  let dismissed := match st.sequenceState with
    | .waiting _ _ toastId => [toastId]
    | .idle => []
  ({ st with sequenceState := .idle, timeoutRef := none,
             pendingTimers := clearTimeoutRef st }, dismissed)

/-- handleKeyDown from the dispatcher source, as a function from the
dispatcher state and one keydown event to the next state and the
observable effects. Branches in source order: the input-focus gate, the
Ctrl/Meta/Alt gate, lower-casing of the key, Escape while waiting, the
double-Shift recogniser, the reset of the shift timestamp on any other
key, then the idle/waiting state machine. -/
def handleKeyDown (reg : Registry) (st : DState) (e : KeyEvent) :
    DState × Effects :=
  if isInputFocused e.activeElement then (st, noEff)
  else if e.ctrlKey || e.metaKey || e.altKey then (st, noEff)
  else
    let key := lower e.key
    if key == "escape" && st.sequenceState.isWaiting then
      let r := resetSequence st
      (r.1, { noEff with prevented := true, dismissed := r.2 })
    else if key == "shift" then
      let timeSinceLastShift := e.now - st.lastShiftPress
      if timeSinceLastShift < DOUBLE_SHIFT_TIMEOUT then
        ({ st with lastShiftPress := 0 },
         { noEff with prevented := true,
                      actions := st.caps.commandMenuOpen true })
      else
        ({ st with lastShiftPress := e.now }, noEff)
    else
      let st := clearShift st
      match st.sequenceState with
      | .idle =>
        let shortcuts := getShortcutsForKey reg key
        if shortcuts.length > 0 then
          let options := shortcuts.map (fun s => (s.sequence.2, s.description))
          let toastId := st.nextToastId
          let timerId := st.nextTimerId
          ({ st with sequenceState := .waiting key e.now toastId,
                     nextToastId := st.nextToastId + 1,
                     timeoutRef := some timerId,
                     pendingTimers := st.pendingTimers ++ [timerId],
                     nextTimerId := st.nextTimerId + 1 },
           { noEff with prevented := true,
                        toasts := [(toastId, .awaiting key options)] })
        else (st, noEff)
      | .waiting firstKey timestamp toastId =>
        let elapsed := e.now - timestamp
        if elapsed > SEQUENCE_TIMEOUT then
          let r := resetSequence st
          (r.1, { noEff with dismissed := r.2 })
        else
          let shortcuts := getShortcutsForKey reg firstKey
          match shortcuts.find? (fun s => s.sequence.2 == key) with
          | some m =>
            let ctx := getShortcutContext st
            let outcome : List (Nat × ToastKind) × List UIAction :=
              match m.handler ctx with
              | .ok acts => ([(st.nextToastId, .success m.description)], acts)
              | .error _ =>
                ([(st.nextToastId, .errorToast "Shortcut fehlgeschlagen")], [])
            ({ st with sequenceState := .idle, timeoutRef := none,
                       pendingTimers := clearTimeoutRef st,
                       nextToastId := st.nextToastId + 1 },
             { noEff with prevented := true, dismissed := [toastId],
                          invoked := [m], invokedWith := [ctx],
                          toasts := outcome.1, actions := outcome.2 })
          | none =>
            let msg := "Unbekannter Shortcut: " ++ upper firstKey
                       ++ " → " ++ upper key
            let st1 := { st with nextToastId := st.nextToastId + 1 }
            let r := resetSequence st1
            (r.1, { noEff with prevented := true,
                               toasts := [(st.nextToastId, .errorToast msg)],
                               dismissed := r.2 })

/-- Firing of an armed setTimeout callback: the callback the source arms is
resetSequence; a timer that has been cancelled (not pending) does not run. -/
def fireTimer (st : DState) (id : Nat) : DState × Effects :=
  if st.pendingTimers.contains id then
    let st1 := { st with pendingTimers := st.pendingTimers.erase id }
    let r := resetSequence st1
    (r.1, { noEff with dismissed := r.2 })
  else (st, noEff)

/-- Cleanup of the keydown effect on provider unmount: the listener is
removed and the armed timer, if any, is cleared. -/
def unmountCleanup (st : DState) : DState :=
  { st with pendingTimers := clearTimeoutRef st }

/-- registerCommandMenu from the provider value: stores the setter in the
commandMenuOpen ref. -/
def registerCommandMenu (setter : Setter) (st : DState) : DState :=
  { st with caps := { st.caps with commandMenuOpen := setter } }

/-- registerQuickFind from the provider value. -/
def registerQuickFind (setter : Setter) (st : DState) : DState :=
  { st with caps := { st.caps with quickFindOpen := setter } }

/-- registerSequentialMode from the provider value. -/
def registerSequentialMode (setter : Setter) (st : DState) : DState :=
  { st with caps := { st.caps with sequentialModeOpen := setter } }

/-- registerIdentityPicker from the provider value. -/
def registerIdentityPicker (setter : Setter) (st : DState) : DState :=
  { st with caps := { st.caps with identityPickerOpen := setter } }

/-- The provider state right after mount: idle, shift ref 0, no timer, all
four setter refs at their no-op initial value. -/
def initState (r : Router) : DState :=
  { sequenceState := .idle, lastShiftPress := 0, timeoutRef := none,
    pendingTimers := [], nextTimerId := 0, nextToastId := 0,
    caps := { commandMenuOpen := noopSetter, quickFindOpen := noopSetter,
              sequentialModeOpen := noopSetter,
              identityPickerOpen := noopSetter },
    router := r }

/-- Events the mounted dispatcher reacts to: a keydown or the firing of an
armed timer. -/
inductive Ev where
  | key (e : KeyEvent)
  | fire (id : Nat)

/-- One step of the mounted dispatcher. -/
def step (reg : Registry) (st : DState) : Ev → DState × Effects
  | .key e => handleKeyDown reg st e
  | .fire id => fireTimer st id

/-- Running a list of events, keeping only the state. -/
def run (reg : Registry) (st : DState) (evs : List Ev) : DState :=
  evs.foldl (fun s ev => (step reg s ev).1) st

/-- Timer discipline invariant: either no timer is pending, or exactly the
timer held in timeoutRef is pending and the machine is in the waiting
state that armed it. -/
def TimerInv (st : DState) : Prop :=
  st.pendingTimers = [] ∨
  (∃ t fk ts tid, st.pendingTimers = [t] ∧ st.timeoutRef = some t ∧
     st.sequenceState = .waiting fk ts tid)

/-! Concrete material used by witnesses and counterexamples: the concrete
scenario registry of spec section 8. -/

/-- A concrete router value. -/
def demoRouter : Router := { id := 0 }

/-- The create-customer entry of the concrete spec scenario. -/
def createCustomer : Shortcut :=
  { sequence := ("n", "c"), description := "create customer",
    handler := fun _ => .ok [] }

/-- An entry whose handler opens the command menu through the context. -/
def openSearch : Shortcut :=
  { sequence := ("o", "s"), description := "open search",
    handler := fun ctx => .ok (ctx.setCommandMenuOpen true) }

/-- An entry whose handler throws. -/
def throwingEntry : Shortcut :=
  { sequence := ("g", "o"), description := "open overdue",
    handler := fun _ => .error "boom" }

/-- A concrete registry for witnesses. -/
def demoReg : Registry := [createCustomer, openSearch, throwingEntry]

/-- A fully eligible keydown event with no modifiers and no focused
text-entry surface. -/
def mkKey (k : String) (t : Int) : KeyEvent :=
  { key := k, ctrlKey := false, metaKey := false, altKey := false,
    shiftKey := false, activeElement := none, now := t }

/-- A concrete setter that records its call as a UI action. -/
def demoSetter : Setter := fun b => [UIAction.commandMenuSet b]

/-! Branch characterisation lemmas for handleKeyDown, one per branch of the
source function. -/

/-- A keydown while a text-entry surface is focused is ignored entirely. -/
theorem handleKeyDown_input_focused (reg : Registry) (st : DState)
    (e : KeyEvent) (h : isInputFocused e.activeElement = true) :
    handleKeyDown reg st e = (st, noEff) := by
  simp [handleKeyDown, h]

/-- A keydown with Ctrl, Meta or Alt held is ignored entirely. -/
theorem handleKeyDown_modifier (reg : Registry) (st : DState) (e : KeyEvent)
    (hfoc : isInputFocused e.activeElement = false)
    (h : (e.ctrlKey || e.metaKey || e.altKey) = true) :
    handleKeyDown reg st e = (st, noEff) := by
  simp only [handleKeyDown, hfoc, h, Bool.false_eq_true, if_false, if_true]

/-- Escape while waiting: the sequence is reset. -/
theorem handleKeyDown_escape_waiting (reg : Registry) (st : DState)
    (e : KeyEvent) (fk : String) (ts : Int) (tid : Nat)
    (hfoc : isInputFocused e.activeElement = false)
    (hc : e.ctrlKey = false) (hm : e.metaKey = false) (ha : e.altKey = false)
    (hkey : lower e.key = "escape")
    (hw : st.sequenceState = .waiting fk ts tid) :
    handleKeyDown reg st e =
      ((resetSequence st).1,
       { noEff with prevented := true, dismissed := (resetSequence st).2 }) := by
  simp [handleKeyDown, hfoc, hc, hm, ha, hkey, hw, SequenceState.isWaiting]

/-- A Shift press within the double-tap window of the tracked timestamp:
the command menu setter is called and the timestamp is reset to 0. -/
theorem handleKeyDown_shift_fire (reg : Registry) (st : DState) (e : KeyEvent)
    (hfoc : isInputFocused e.activeElement = false)
    (hc : e.ctrlKey = false) (hm : e.metaKey = false) (ha : e.altKey = false)
    (hkey : lower e.key = "shift")
    (hdt : e.now - st.lastShiftPress < DOUBLE_SHIFT_TIMEOUT) :
    handleKeyDown reg st e =
      ({ st with lastShiftPress := 0 },
       { noEff with prevented := true,
                    actions := st.caps.commandMenuOpen true }) := by
  simp [handleKeyDown, hfoc, hc, hm, ha, hkey, hdt]

/-- A Shift press outside the double-tap window: the timestamp is recorded. -/
theorem handleKeyDown_shift_arm (reg : Registry) (st : DState) (e : KeyEvent)
    (hfoc : isInputFocused e.activeElement = false)
    (hc : e.ctrlKey = false) (hm : e.metaKey = false) (ha : e.altKey = false)
    (hkey : lower e.key = "shift")
    (hdt : ¬ (e.now - st.lastShiftPress < DOUBLE_SHIFT_TIMEOUT)) :
    handleKeyDown reg st e = ({ st with lastShiftPress := e.now }, noEff) := by
  simp [handleKeyDown, hfoc, hc, hm, ha, hkey, hdt]

/-- An idle-state press of a key that starts no sequence: only the shift
timestamp reset happens. -/
theorem handleKeyDown_idle_nomatch (reg : Registry) (st : DState)
    (e : KeyEvent) (k : String)
    (hfoc : isInputFocused e.activeElement = false)
    (hc : e.ctrlKey = false) (hm : e.metaKey = false) (ha : e.altKey = false)
    (hkey : lower e.key = k) (hksh : (k == "shift") = false)
    (hidle : st.sequenceState = .idle)
    (hz : getShortcutsForKey reg k = []) :
    handleKeyDown reg st e = (clearShift st, noEff) := by
  simp [handleKeyDown, hfoc, hc, hm, ha, hkey, hksh, hidle, hz, clearShift,
    SequenceState.isWaiting]

/-- An idle-state press of a key with registry entries: the machine enters
waiting, shows the awaiting toast and arms the timer. -/
theorem handleKeyDown_idle_arm (reg : Registry) (st : DState)
    (e : KeyEvent) (k : String)
    (hfoc : isInputFocused e.activeElement = false)
    (hc : e.ctrlKey = false) (hm : e.metaKey = false) (ha : e.altKey = false)
    (hkey : lower e.key = k) (hksh : (k == "shift") = false)
    (hidle : st.sequenceState = .idle)
    (hnz : 0 < (getShortcutsForKey reg k).length) :
    handleKeyDown reg st e =
      ({ clearShift st with
           sequenceState := .waiting k e.now st.nextToastId,
           nextToastId := st.nextToastId + 1,
           timeoutRef := some st.nextTimerId,
           pendingTimers := st.pendingTimers ++ [st.nextTimerId],
           nextTimerId := st.nextTimerId + 1 },
       { noEff with prevented := true,
                    toasts := [(st.nextToastId,
                      .awaiting k ((getShortcutsForKey reg k).map
                        (fun s => (s.sequence.2, s.description))))] }) := by
  simp [handleKeyDown, hfoc, hc, hm, ha, hkey, hksh, hidle, hnz, clearShift,
    SequenceState.isWaiting]

/-- A waiting-state press after the timeout has expired: silent reset, no
lookup, no handler. -/
theorem handleKeyDown_waiting_late (reg : Registry) (st : DState)
    (e : KeyEvent) (k fk : String) (ts : Int) (tid : Nat)
    (hfoc : isInputFocused e.activeElement = false)
    (hc : e.ctrlKey = false) (hm : e.metaKey = false) (ha : e.altKey = false)
    (hkey : lower e.key = k) (hksh : (k == "shift") = false)
    (hkesc : (k == "escape") = false)
    (hw : st.sequenceState = .waiting fk ts tid)
    (hel : e.now - ts > SEQUENCE_TIMEOUT) :
    handleKeyDown reg st e =
      ((resetSequence (clearShift st)).1,
       { noEff with dismissed := (resetSequence (clearShift st)).2 }) := by
  simp [handleKeyDown, hfoc, hc, hm, ha, hkey, hksh, hkesc, hw, hel,
    clearShift, SequenceState.isWaiting]

/-- A waiting-state press of a matching second key within the timeout, when
the handler returns normally: toast dismissed, handler invoked with the
freshly built context, success toast, state idle, timer cleared. -/
theorem handleKeyDown_match_ok (reg : Registry) (st : DState)
    (e : KeyEvent) (k fk : String) (ts : Int) (tid : Nat) (m : Shortcut)
    (acts : List UIAction)
    (hfoc : isInputFocused e.activeElement = false)
    (hc : e.ctrlKey = false) (hm : e.metaKey = false) (ha : e.altKey = false)
    (hkey : lower e.key = k) (hksh : (k == "shift") = false)
    (hkesc : (k == "escape") = false)
    (hw : st.sequenceState = .waiting fk ts tid)
    (hel : ¬ (e.now - ts > SEQUENCE_TIMEOUT))
    (hfind : (getShortcutsForKey reg fk).find? (fun s => s.sequence.2 == k)
               = some m)
    (hh : m.handler (getShortcutContext st) = .ok acts) :
    handleKeyDown reg st e =
      ({ clearShift st with
           sequenceState := .idle, timeoutRef := none,
           pendingTimers := clearTimeoutRef st,
           nextToastId := st.nextToastId + 1 },
       { noEff with prevented := true, dismissed := [tid],
                    invoked := [m], invokedWith := [getShortcutContext st],
                    toasts := [(st.nextToastId, .success m.description)],
                    actions := acts }) := by
  simp only [getShortcutContext] at hh
  simp [handleKeyDown, hfoc, hc, hm, ha, hkey, hksh, hkesc, hw, hel, hfind,
    hh, clearShift, clearTimeoutRef, getShortcutContext,
    SequenceState.isWaiting]

/-- A waiting-state press of a matching second key within the timeout, when
the handler throws: the failure toast is shown instead of the success
toast, no actions escape, state idle, timer cleared. -/
theorem handleKeyDown_match_throw (reg : Registry) (st : DState)
    (e : KeyEvent) (k fk : String) (ts : Int) (tid : Nat) (m : Shortcut)
    (msg : String)
    (hfoc : isInputFocused e.activeElement = false)
    (hc : e.ctrlKey = false) (hm : e.metaKey = false) (ha : e.altKey = false)
    (hkey : lower e.key = k) (hksh : (k == "shift") = false)
    (hkesc : (k == "escape") = false)
    (hw : st.sequenceState = .waiting fk ts tid)
    (hel : ¬ (e.now - ts > SEQUENCE_TIMEOUT))
    (hfind : (getShortcutsForKey reg fk).find? (fun s => s.sequence.2 == k)
               = some m)
    (hh : m.handler (getShortcutContext st) = .error msg) :
    handleKeyDown reg st e =
      ({ clearShift st with
           sequenceState := .idle, timeoutRef := none,
           pendingTimers := clearTimeoutRef st,
           nextToastId := st.nextToastId + 1 },
       { noEff with prevented := true, dismissed := [tid],
                    invoked := [m], invokedWith := [getShortcutContext st],
                    toasts := [(st.nextToastId,
                      .errorToast "Shortcut fehlgeschlagen")],
                    actions := [] }) := by
  simp only [getShortcutContext] at hh
  simp [handleKeyDown, hfoc, hc, hm, ha, hkey, hksh, hkesc, hw, hel, hfind,
    hh, clearShift, clearTimeoutRef, getShortcutContext,
    SequenceState.isWaiting]

/-- A waiting-state press of an unmatched second key within the timeout:
the unknown-sequence toast is shown once and the sequence resets. -/
theorem handleKeyDown_waiting_unknown (reg : Registry) (st : DState)
    (e : KeyEvent) (k fk : String) (ts : Int) (tid : Nat)
    (hfoc : isInputFocused e.activeElement = false)
    (hc : e.ctrlKey = false) (hm : e.metaKey = false) (ha : e.altKey = false)
    (hkey : lower e.key = k) (hksh : (k == "shift") = false)
    (hkesc : (k == "escape") = false)
    (hw : st.sequenceState = .waiting fk ts tid)
    (hel : ¬ (e.now - ts > SEQUENCE_TIMEOUT))
    (hfind : (getShortcutsForKey reg fk).find? (fun s => s.sequence.2 == k)
               = none) :
    handleKeyDown reg st e =
      ({ clearShift st with
           sequenceState := .idle, timeoutRef := none,
           pendingTimers := clearTimeoutRef st,
           nextToastId := st.nextToastId + 1 },
       { noEff with prevented := true,
                    toasts := [(st.nextToastId,
                      .errorToast ("Unbekannter Shortcut: " ++ upper fk
                        ++ " → " ++ upper k))],
                    dismissed := [tid] }) := by
  simp [handleKeyDown, resetSequence, hfoc, hc, hm, ha, hkey, hksh, hkesc,
    hw, hel, hfind, clearShift, clearTimeoutRef, SequenceState.isWaiting]

/-! Small helper lemmas shared by the claim theorems. -/

/-- A single-character key is not the Shift key name. -/
theorem beq_shift_of_len {k : String} (hk : k.length = 1) :
    (k == "shift") = false := by
  apply beq_eq_false_iff_ne.mpr
  intro h
  rw [h] at hk
  exact absurd hk (by decide)

/-- A single-character key is not the Escape key name. -/
theorem beq_escape_of_len {k : String} (hk : k.length = 1) :
    (k == "escape") = false := by
  apply beq_eq_false_iff_ne.mpr
  intro h
  rw [h] at hk
  exact absurd hk (by decide)

/-- Under the timer invariant, cancelling the timer held in timeoutRef
leaves no pending timer. -/
theorem clearTimeoutRef_of_inv (st : DState) (hinv : TimerInv st) :
    clearTimeoutRef st = [] := by
  unfold clearTimeoutRef
  rcases hinv with h | ⟨t, fk, ts, tid, hp, hr, _⟩
  · rw [h]; cases st.timeoutRef <;> simp
  · rw [hp, hr]; simp

/-- Under the timer invariant, an idle dispatcher has no pending timer. -/
theorem pending_nil_of_idle (st : DState) (hinv : TimerInv st)
    (hidle : st.sequenceState = .idle) : st.pendingTimers = [] := by
  rcases hinv with h | ⟨t, fk, ts, tid, hp, hr, hs⟩
  · exact h
  · rw [hidle] at hs; cases hs

/-- The timer invariant only mentions the three timer-related fields. -/
theorem timerInv_of_fields {st st' : DState}
    (hseq : st'.sequenceState = st.sequenceState)
    (hp : st'.pendingTimers = st.pendingTimers)
    (hr : st'.timeoutRef = st.timeoutRef)
    (hinv : TimerInv st) : TimerInv st' := by
  unfold TimerInv at *
  rw [hseq, hp, hr]
  exact hinv

/-- A focused element satisfying one of the text-entry conditions of the
spec makes isInputFocused return true. -/
theorem isInputFocused_of_textentry (el : ActiveElement)
    (h : el.tagName = "INPUT" ∨ el.tagName = "TEXTAREA" ∨
         el.contenteditable = some "true" ∨ el.contenteditable = some "" ∨
         el.contenteditable = some "plaintext-only" ∨
         el.role = some "textbox") :
    isInputFocused (some el) = true := by
  unfold isInputFocused
  rcases h with h | h | h | h | h | h
  · simp [h]
  · simp [h]
  · by_cases h1 : (el.tagName == "INPUT" || el.tagName == "TEXTAREA") = true
    · simp [h1]
    · simp [h1, h]
  · by_cases h1 : (el.tagName == "INPUT" || el.tagName == "TEXTAREA") = true
    · simp [h1]
    · simp [h1, h]
  · by_cases h1 : (el.tagName == "INPUT" || el.tagName == "TEXTAREA") = true
    · simp [h1]
    · simp [h1, h]
  · by_cases h1 : (el.tagName == "INPUT" || el.tagName == "TEXTAREA") = true
    · simp [h1]
    · by_cases h2 : (match el.contenteditable with
          | some v => v == "true" || v == "" || v == "plaintext-only"
          | none => false) = true
      · simp [h1, h2]
      · simp [h1, h2, h]

/-! Claim theorems. -/

/-- C5: for every key event arriving while a text-entry surface holds focus
(an INPUT or TEXTAREA element, an element with contenteditable set to
"true", "" or "plaintext-only", or an element with ARIA role textbox), or
while Ctrl, Alt or Meta is held, neither the chord state machine nor the
double-tap recognizer changes state and no handler is invoked; Shift alone
does not make an event ineligible. -/
theorem ineligible_events_are_inert (reg : Registry) (st : DState)
    (e : KeyEvent)
    (h : (∃ el, e.activeElement = some el ∧
            (el.tagName = "INPUT" ∨ el.tagName = "TEXTAREA" ∨
             el.contenteditable = some "true" ∨ el.contenteditable = some "" ∨
             el.contenteditable = some "plaintext-only" ∨
             el.role = some "textbox")) ∨
         e.ctrlKey = true ∨ e.altKey = true ∨ e.metaKey = true) :
    handleKeyDown reg st e = (st, noEff) ∧
    ∀ (e2 : KeyEvent) (b : Bool),
      handleKeyDown reg st { e2 with shiftKey := b } =
        handleKeyDown reg st e2 := by
  constructor
  · rcases h with ⟨el, hel, hcond⟩ | h | h | h
    · have hfoc : isInputFocused e.activeElement = true := by
        rw [hel]; exact isInputFocused_of_textentry el hcond
      exact handleKeyDown_input_focused reg st e hfoc
    all_goals (
      by_cases hfoc : isInputFocused e.activeElement = true
      · exact handleKeyDown_input_focused reg st e hfoc
      · exact handleKeyDown_modifier reg st e (by simpa using hfoc)
          (by simp [h]))
  · intro e2 b
    cases e2
    rfl

/-- Witness for C5 at a concrete ineligible event: a keydown with Ctrl held
leaves the initial state untouched. -/
theorem ineligible_events_are_inert_witness :
    handleKeyDown demoReg (initState demoRouter)
      { mkKey "n" 5 with ctrlKey := true } = (initState demoRouter, noEff) :=
  (ineligible_events_are_inert demoReg (initState demoRouter)
    { mkKey "n" 5 with ctrlKey := true } (Or.inr (Or.inl rfl))).1

/-- C8: pressing Escape while Awaiting returns the state to Idle, dismisses
the awaiting feedback, clears the armed timer, and invokes no handler,
regardless of elapsed time since the first key. -/
theorem escape_cancels_sequence (reg : Registry) (st : DState) (e : KeyEvent)
    (fk : String) (ts : Int) (tid : Nat)
    (hfoc : isInputFocused e.activeElement = false)
    (hc : e.ctrlKey = false) (hm : e.metaKey = false) (ha : e.altKey = false)
    (hkey : lower e.key = "escape")
    (hw : st.sequenceState = .waiting fk ts tid)
    (hinv : TimerInv st) :
    (handleKeyDown reg st e).1.sequenceState = .idle ∧
    (handleKeyDown reg st e).1.timeoutRef = none ∧
    (handleKeyDown reg st e).1.pendingTimers = [] ∧
    (handleKeyDown reg st e).2.dismissed = [tid] ∧
    (handleKeyDown reg st e).2.invoked = [] ∧
    (handleKeyDown reg st e).2.toasts = [] := by
  rw [handleKeyDown_escape_waiting reg st e fk ts tid hfoc hc hm ha hkey hw]
  refine ⟨rfl, rfl, ?_, ?_, rfl, rfl⟩
  · exact clearTimeoutRef_of_inv st hinv
  · simp [resetSequence, hw]

/-- Witness for C8: from a concrete waiting state entered by pressing n,
Escape cancels. -/
theorem escape_cancels_sequence_witness :
    (handleKeyDown demoReg
      (handleKeyDown demoReg (initState demoRouter) (mkKey "n" 1000)).1
      (mkKey "Escape" 5000)).1.sequenceState = .idle ∧
    (handleKeyDown demoReg
      (handleKeyDown demoReg (initState demoRouter) (mkKey "n" 1000)).1
      (mkKey "Escape" 5000)).2.dismissed = [0] := by
  have h := escape_cancels_sequence demoReg
    (handleKeyDown demoReg (initState demoRouter) (mkKey "n" 1000)).1
    (mkKey "Escape" 5000) "n" 1000 0 rfl rfl rfl rfl rfl rfl
    (Or.inr ⟨0, "n", 1000, 0, rfl, rfl, rfl⟩)
  exact ⟨h.1, h.2.2.2.1⟩

/-- Registry lookup of the second key: under the spec uniqueness invariant
the source expression `shortcuts.find(...)` returns exactly the entry with
the given sequence. -/
theorem find_second (reg : Registry) (entry : Shortcut) (f s : String)
    (hmem : entry ∈ reg) (hseq : entry.sequence = (f, s))
    (huniq : ∀ x ∈ reg, x.sequence = (f, s) → x = entry) :
    (getShortcutsForKey reg f).find? (fun x => x.sequence.2 == s)
      = some entry := by
  cases hfind : (getShortcutsForKey reg f).find? (fun x => x.sequence.2 == s)
    with
  | none =>
    exfalso
    have hmem' : entry ∈ getShortcutsForKey reg f := by
      unfold getShortcutsForKey
      exact List.mem_filter.mpr ⟨hmem, by simp [hseq]⟩
    have := List.find?_eq_none.mp hfind entry hmem'
    simp [hseq] at this
  | some y =>
    have hy2 : y.sequence.2 = s := by
      simpa using List.find?_some hfind
    have hymem : y ∈ getShortcutsForKey reg f := List.mem_of_find?_eq_some hfind
    have hsplit : y ∈ reg ∧ y.sequence.1 = f := by
      simpa [getShortcutsForKey] using hymem
    have hyfs : y.sequence = (f, s) := by
      rw [← hsplit.2, ← hy2]
    rw [huniq y hsplit.1 hyfs]

/-- C1: for every chord entry (f, s) in the registry, starting from Idle
with no text-entry surface focused and no Ctrl/Alt/Meta held, pressing f
and then s with elapsed time less than SEQUENCE_TIMEOUT invokes the
handler of that entry exactly once and leaves the dispatcher state Idle
with no armed timer. Keys of chord entries are single characters (spec section 3),
carried here as the length hypotheses; the uniqueness hypothesis is the
spec registry invariant. -/
theorem chord_invokes_handler_once (reg : Registry) (entry : Shortcut)
    (f s : String) (st : DState) (e1 e2 : KeyEvent)
    (hmem : entry ∈ reg) (hseq : entry.sequence = (f, s))
    (huniq : ∀ x ∈ reg, x.sequence = (f, s) → x = entry)
    (hf1 : f.length = 1) (hs1 : s.length = 1)
    (hidle : st.sequenceState = .idle) (hinv : TimerInv st)
    (hfoc1 : isInputFocused e1.activeElement = false)
    (hc1 : e1.ctrlKey = false) (hm1 : e1.metaKey = false)
    (ha1 : e1.altKey = false)
    (hk1 : lower e1.key = f)
    (hfoc2 : isInputFocused e2.activeElement = false)
    (hc2 : e2.ctrlKey = false) (hm2 : e2.metaKey = false)
    (ha2 : e2.altKey = false)
    (hk2 : lower e2.key = s)
    (hel : e2.now - e1.now < SEQUENCE_TIMEOUT) :
    (handleKeyDown reg st e1).2.invoked = [] ∧
    (handleKeyDown reg (handleKeyDown reg st e1).1 e2).2.invoked = [entry] ∧
    (handleKeyDown reg (handleKeyDown reg st e1).1 e2).1.sequenceState
      = .idle ∧
    (handleKeyDown reg (handleKeyDown reg st e1).1 e2).1.timeoutRef = none ∧
    (handleKeyDown reg (handleKeyDown reg st e1).1 e2).1.pendingTimers
      = [] := by
  have hksh1 : (f == "shift") = false := beq_shift_of_len hf1
  have hksh2 : (s == "shift") = false := beq_shift_of_len hs1
  have hkesc2 : (s == "escape") = false := beq_escape_of_len hs1
  have hnz : 0 < (getShortcutsForKey reg f).length := by
    have hmem' : entry ∈ getShortcutsForKey reg f := by
      unfold getShortcutsForKey
      exact List.mem_filter.mpr ⟨hmem, by simp [hseq]⟩
    exact List.length_pos.mpr (List.ne_nil_of_mem hmem')
  have h1 := handleKeyDown_idle_arm reg st e1 f hfoc1 hc1 hm1 ha1 hk1 hksh1
    hidle hnz
  have hw1 : (handleKeyDown reg st e1).1.sequenceState
      = .waiting f e1.now st.nextToastId := by rw [h1]
  have hinv1 : (handleKeyDown reg st e1).1.pendingTimers
      = [st.nextTimerId] := by
    rw [h1]
    show st.pendingTimers ++ [st.nextTimerId] = [st.nextTimerId]
    rw [pending_nil_of_idle st hinv hidle]
    rfl
  have hts1 : (handleKeyDown reg st e1).1.timeoutRef
      = some st.nextTimerId := by rw [h1]
  have hclr1 : clearTimeoutRef (handleKeyDown reg st e1).1 = [] := by
    unfold clearTimeoutRef
    rw [hts1, hinv1]
    simp
  have hel2 : ¬ (e2.now - e1.now > SEQUENCE_TIMEOUT) := by omega
  have hfind := find_second reg entry f s hmem hseq huniq
  have hinv0 : (handleKeyDown reg st e1).2.invoked = [] := by
    rw [h1]
    rfl
  cases hout : entry.handler (getShortcutContext (handleKeyDown reg st e1).1)
    with
  | ok acts =>
    have h2 := handleKeyDown_match_ok reg (handleKeyDown reg st e1).1 e2 s f
      e1.now st.nextToastId entry acts hfoc2 hc2 hm2 ha2 hk2 hksh2 hkesc2
      hw1 hel2 hfind hout
    rw [h2]
    exact ⟨hinv0, rfl, rfl, rfl, hclr1⟩
  | error msg =>
    have h2 := handleKeyDown_match_throw reg (handleKeyDown reg st e1).1 e2 s
      f e1.now st.nextToastId entry msg hfoc2 hc2 hm2 ha2 hk2 hksh2 hkesc2
      hw1 hel2 hfind hout
    rw [h2]
    exact ⟨hinv0, rfl, rfl, rfl, hclr1⟩

/-- Witness for C1: the concrete scenario of spec section 8, registry entry
(n, c), pressed at 1000 and 1500 ms. -/
theorem chord_invokes_handler_once_witness :
    (handleKeyDown demoReg (initState demoRouter) (mkKey "n" 1000)).2.invoked
      = [] ∧
    (handleKeyDown demoReg
      (handleKeyDown demoReg (initState demoRouter) (mkKey "n" 1000)).1
      (mkKey "c" 1500)).2.invoked = [createCustomer] ∧
    (handleKeyDown demoReg
      (handleKeyDown demoReg (initState demoRouter) (mkKey "n" 1000)).1
      (mkKey "c" 1500)).1.sequenceState = .idle := by
  have h := chord_invokes_handler_once demoReg createCustomer "n" "c"
    (initState demoRouter) (mkKey "n" 1000) (mkKey "c" 1500)
    (by simp [demoReg]) rfl
    (by
      intro x hx hsx
      simp [demoReg] at hx
      rcases hx with h | h | h
      · exact h
      · rw [h] at hsx; exact absurd hsx (by decide)
      · rw [h] at hsx; exact absurd hsx (by decide))
    rfl rfl rfl (Or.inl rfl) rfl rfl rfl rfl rfl rfl rfl rfl rfl rfl
    (by decide)
  exact ⟨h.1, h.2.1, h.2.2.1⟩

/-- C2: for every chord entry whose handler throws when invoked, completing
that chord leaves the dispatcher state Idle, shows a visible failure
notification instead of the success notification, and the exception does
not propagate out of the key-event handler. Non-propagation is expressed by
handleKeyDown being a total function whose outcome is fully described here:
the thrown error is absorbed into the failure toast. -/
theorem throwing_handler_contained (reg : Registry) (entry : Shortcut)
    (f s : String) (st : DState) (e1 e2 : KeyEvent)
    (hmem : entry ∈ reg) (hseq : entry.sequence = (f, s))
    (huniq : ∀ x ∈ reg, x.sequence = (f, s) → x = entry)
    (hthrow : ∀ ctx, ∃ msg, entry.handler ctx = Except.error msg)
    (hf1 : f.length = 1) (hs1 : s.length = 1)
    (hidle : st.sequenceState = .idle) (hinv : TimerInv st)
    (hfoc1 : isInputFocused e1.activeElement = false)
    (hc1 : e1.ctrlKey = false) (hm1 : e1.metaKey = false)
    (ha1 : e1.altKey = false)
    (hk1 : lower e1.key = f)
    (hfoc2 : isInputFocused e2.activeElement = false)
    (hc2 : e2.ctrlKey = false) (hm2 : e2.metaKey = false)
    (ha2 : e2.altKey = false)
    (hk2 : lower e2.key = s)
    (hel : e2.now - e1.now < SEQUENCE_TIMEOUT) :
    (handleKeyDown reg (handleKeyDown reg st e1).1 e2).1.sequenceState
      = .idle ∧
    (handleKeyDown reg (handleKeyDown reg st e1).1 e2).1.timeoutRef = none ∧
    (handleKeyDown reg (handleKeyDown reg st e1).1 e2).1.pendingTimers
      = [] ∧
    (handleKeyDown reg (handleKeyDown reg st e1).1 e2).2.toasts
      = [((handleKeyDown reg st e1).1.nextToastId,
          .errorToast "Shortcut fehlgeschlagen")] ∧
    (handleKeyDown reg (handleKeyDown reg st e1).1 e2).2.actions = [] := by
  have hksh1 : (f == "shift") = false := beq_shift_of_len hf1
  have hksh2 : (s == "shift") = false := beq_shift_of_len hs1
  have hkesc2 : (s == "escape") = false := beq_escape_of_len hs1
  have hnz : 0 < (getShortcutsForKey reg f).length := by
    have hmem' : entry ∈ getShortcutsForKey reg f := by
      unfold getShortcutsForKey
      exact List.mem_filter.mpr ⟨hmem, by simp [hseq]⟩
    exact List.length_pos.mpr (List.ne_nil_of_mem hmem')
  have h1 := handleKeyDown_idle_arm reg st e1 f hfoc1 hc1 hm1 ha1 hk1 hksh1
    hidle hnz
  have hw1 : (handleKeyDown reg st e1).1.sequenceState
      = .waiting f e1.now st.nextToastId := by rw [h1]
  have hinv1 : (handleKeyDown reg st e1).1.pendingTimers
      = [st.nextTimerId] := by
    rw [h1]
    show st.pendingTimers ++ [st.nextTimerId] = [st.nextTimerId]
    rw [pending_nil_of_idle st hinv hidle]
    rfl
  have hts1 : (handleKeyDown reg st e1).1.timeoutRef
      = some st.nextTimerId := by rw [h1]
  have hclr1 : clearTimeoutRef (handleKeyDown reg st e1).1 = [] := by
    unfold clearTimeoutRef
    rw [hts1, hinv1]
    simp
  have hel2 : ¬ (e2.now - e1.now > SEQUENCE_TIMEOUT) := by omega
  have hfind := find_second reg entry f s hmem hseq huniq
  obtain ⟨msg, hout⟩ :=
    hthrow (getShortcutContext (handleKeyDown reg st e1).1)
  have h2 := handleKeyDown_match_throw reg (handleKeyDown reg st e1).1 e2 s f
    e1.now st.nextToastId entry msg hfoc2 hc2 hm2 ha2 hk2 hksh2 hkesc2
    hw1 hel2 hfind hout
  rw [h2]
  exact ⟨rfl, rfl, hclr1, rfl, rfl⟩

/-- Witness for C2: the throwing entry (g, o) of the demo registry,
completed at 100 and 200 ms. -/
theorem throwing_handler_contained_witness :
    (handleKeyDown demoReg
      (handleKeyDown demoReg (initState demoRouter) (mkKey "g" 100)).1
      (mkKey "o" 200)).1.sequenceState = .idle ∧
    (handleKeyDown demoReg
      (handleKeyDown demoReg (initState demoRouter) (mkKey "g" 100)).1
      (mkKey "o" 200)).2.toasts
      = [(1, .errorToast "Shortcut fehlgeschlagen")] := by
  have h := throwing_handler_contained demoReg throwingEntry "g" "o"
    (initState demoRouter) (mkKey "g" 100) (mkKey "o" 200)
    (by simp [demoReg]) rfl
    (by
      intro x hx hsx
      simp [demoReg] at hx
      rcases hx with h | h | h
      · rw [h] at hsx; exact absurd hsx (by decide)
      · rw [h] at hsx; exact absurd hsx (by decide)
      · exact h)
    (fun ctx => ⟨"boom", rfl⟩)
    rfl rfl rfl (Or.inl rfl) rfl rfl rfl rfl rfl rfl rfl rfl rfl rfl
    (by decide)
  exact ⟨h.1, h.2.2.2.1⟩

/-- C3 counterexample: in the concrete scenario the first key is accepted
at 1000 ms and the second key arrives at 3000 ms, so the elapsed time is
exactly SEQUENCE_TIMEOUT, which is greater than or equal to it; the claim
says the handler must not be invoked then, but the source only resets for
elapsed strictly greater than SEQUENCE_TIMEOUT, so the handler IS
invoked. -/
theorem timeout_boundary_counterexample :
    (3000 : Int) - 1000 ≥ SEQUENCE_TIMEOUT ∧
    (handleKeyDown demoReg
      (handleKeyDown demoReg (initState demoRouter) (mkKey "n" 1000)).1
      (mkKey "c" 3000)).2.invoked = [createCustomer] :=
  ⟨by decide, rfl⟩

/-- C3 amended: after f is accepted into Awaiting at time t0, a press of s
at time t with t - t0 strictly greater than SEQUENCE_TIMEOUT does not
invoke the handler and the machine ends in Idle; the handler is invoked
only when the elapsed time is at most SEQUENCE_TIMEOUT (a press at exactly
the timeout still matches). -/
theorem late_second_key_ignored (reg : Registry) (entry : Shortcut)
    (f s : String) (st : DState) (e1 e2 : KeyEvent)
    (hmem : entry ∈ reg) (hseq : entry.sequence = (f, s))
    (hf1 : f.length = 1) (hs1 : s.length = 1)
    (hidle : st.sequenceState = .idle) (hinv : TimerInv st)
    (hfoc1 : isInputFocused e1.activeElement = false)
    (hc1 : e1.ctrlKey = false) (hm1 : e1.metaKey = false)
    (ha1 : e1.altKey = false)
    (hk1 : lower e1.key = f)
    (hfoc2 : isInputFocused e2.activeElement = false)
    (hc2 : e2.ctrlKey = false) (hm2 : e2.metaKey = false)
    (ha2 : e2.altKey = false)
    (hk2 : lower e2.key = s) :
    (e2.now - e1.now > SEQUENCE_TIMEOUT →
      (handleKeyDown reg (handleKeyDown reg st e1).1 e2).2.invoked = [] ∧
      (handleKeyDown reg (handleKeyDown reg st e1).1 e2).1.sequenceState
        = .idle ∧
      (handleKeyDown reg (handleKeyDown reg st e1).1 e2).1.pendingTimers
        = []) ∧
    ((handleKeyDown reg (handleKeyDown reg st e1).1 e2).2.invoked ≠ [] →
      e2.now - e1.now ≤ SEQUENCE_TIMEOUT) := by
  have hksh1 : (f == "shift") = false := beq_shift_of_len hf1
  have hksh2 : (s == "shift") = false := beq_shift_of_len hs1
  have hkesc2 : (s == "escape") = false := beq_escape_of_len hs1
  have hnz : 0 < (getShortcutsForKey reg f).length := by
    have hmem' : entry ∈ getShortcutsForKey reg f := by
      unfold getShortcutsForKey
      exact List.mem_filter.mpr ⟨hmem, by simp [hseq]⟩
    exact List.length_pos.mpr (List.ne_nil_of_mem hmem')
  have h1 := handleKeyDown_idle_arm reg st e1 f hfoc1 hc1 hm1 ha1 hk1 hksh1
    hidle hnz
  have hw1 : (handleKeyDown reg st e1).1.sequenceState
      = .waiting f e1.now st.nextToastId := by rw [h1]
  have hinv1 : (handleKeyDown reg st e1).1.pendingTimers
      = [st.nextTimerId] := by
    rw [h1]
    show st.pendingTimers ++ [st.nextTimerId] = [st.nextTimerId]
    rw [pending_nil_of_idle st hinv hidle]
    rfl
  have hts1 : (handleKeyDown reg st e1).1.timeoutRef
      = some st.nextTimerId := by rw [h1]
  have hclr1 : clearTimeoutRef (handleKeyDown reg st e1).1 = [] := by
    unfold clearTimeoutRef
    rw [hts1, hinv1]
    simp
  have hclr1s : clearTimeoutRef (clearShift (handleKeyDown reg st e1).1)
      = clearTimeoutRef (handleKeyDown reg st e1).1 := rfl
  constructor
  · intro hgt
    have h2 := handleKeyDown_waiting_late reg (handleKeyDown reg st e1).1 e2
      s f e1.now st.nextToastId hfoc2 hc2 hm2 ha2 hk2 hksh2 hkesc2 hw1 hgt
    rw [h2]
    refine ⟨rfl, rfl, ?_⟩
    show clearTimeoutRef (clearShift (handleKeyDown reg st e1).1) = []
    rw [hclr1s, hclr1]
  · intro hne
    by_cases hgt : e2.now - e1.now > SEQUENCE_TIMEOUT
    · exfalso
      have h2 := handleKeyDown_waiting_late reg (handleKeyDown reg st e1).1
        e2 s f e1.now st.nextToastId hfoc2 hc2 hm2 ha2 hk2 hksh2 hkesc2 hw1
        hgt
      rw [h2] at hne
      exact hne rfl
    · omega

/-- Witness for the amended C3: first key at 1000 ms, second at 3500 ms,
elapsed 2500 ms: no handler runs and the machine is Idle. -/
theorem late_second_key_ignored_witness :
    (handleKeyDown demoReg
      (handleKeyDown demoReg (initState demoRouter) (mkKey "n" 1000)).1
      (mkKey "c" 3500)).2.invoked = [] ∧
    (handleKeyDown demoReg
      (handleKeyDown demoReg (initState demoRouter) (mkKey "n" 1000)).1
      (mkKey "c" 3500)).1.sequenceState = .idle := by
  have h := late_second_key_ignored demoReg createCustomer "n" "c"
    (initState demoRouter) (mkKey "n" 1000) (mkKey "c" 3500)
    (by simp [demoReg]) rfl rfl rfl rfl (Or.inl rfl)
    rfl rfl rfl rfl rfl rfl rfl rfl rfl rfl
  have h2 := h.1 (by decide)
  exact ⟨h2.1, h2.2.1⟩

/-- C7 counterexample: Shift is an eligible key (the gate lets it through), the
registry has no entry (n, shift), and a Shift press arrives 500 ms into an
Awaiting n state, yet the dispatcher neither shows the unknown-sequence
feedback nor returns to Idle: the press is consumed by the double-tap
recogniser and the chord machine stays waiting. -/
theorem unknown_second_key_counterexample :
    (∀ x ∈ demoReg, x.sequence.1 = "n" → x.sequence.2 ≠ "shift") ∧
    ((1500 : Int) - 1000 < SEQUENCE_TIMEOUT) ∧
    (handleKeyDown demoReg
      (handleKeyDown demoReg (initState demoRouter) (mkKey "n" 1000)).1
      (mkKey "Shift" 1500)).1.sequenceState.isWaiting = true ∧
    (handleKeyDown demoReg
      (handleKeyDown demoReg (initState demoRouter) (mkKey "n" 1000)).1
      (mkKey "Shift" 1500)).2.toasts = [] ∧
    (handleKeyDown demoReg
      (handleKeyDown demoReg (initState demoRouter) (mkKey "n" 1000)).1
      (mkKey "Shift" 1500)).2.invoked = [] := by
  refine ⟨by decide, by decide, rfl, rfl, rfl⟩

/-- C7 amended: for every state Awaiting with first key f and every
eligible key k other than Shift and Escape with no registry entry (f, k),
pressing k before the timeout invokes no handler, produces the
unknown-sequence feedback exactly once, and returns the state to Idle.
(A Shift press is consumed by the double-tap recogniser and leaves the
chord machine waiting; Escape cancels without unknown-sequence feedback.) -/
theorem unknown_second_key_rejected (reg : Registry) (st : DState)
    (e : KeyEvent) (k fk : String) (ts : Int) (tid : Nat)
    (hfoc : isInputFocused e.activeElement = false)
    (hc : e.ctrlKey = false) (hm : e.metaKey = false) (ha : e.altKey = false)
    (hkey : lower e.key = k)
    (hksh : k ≠ "shift") (hkesc : k ≠ "escape")
    (hw : st.sequenceState = .waiting fk ts tid) (hinv : TimerInv st)
    (hel : e.now - ts < SEQUENCE_TIMEOUT)
    (hnone : ∀ x ∈ reg, x.sequence.1 = fk → x.sequence.2 ≠ k) :
    (handleKeyDown reg st e).2.invoked = [] ∧
    (handleKeyDown reg st e).2.toasts
      = [(st.nextToastId,
          .errorToast ("Unbekannter Shortcut: " ++ upper fk
            ++ " → " ++ upper k))] ∧
    (handleKeyDown reg st e).1.sequenceState = .idle ∧
    (handleKeyDown reg st e).1.timeoutRef = none ∧
    (handleKeyDown reg st e).1.pendingTimers = [] := by
  have hksh' : (k == "shift") = false := beq_eq_false_iff_ne.mpr hksh
  have hkesc' : (k == "escape") = false := beq_eq_false_iff_ne.mpr hkesc
  have hel' : ¬ (e.now - ts > SEQUENCE_TIMEOUT) := by omega
  have hfind : (getShortcutsForKey reg fk).find?
      (fun x => x.sequence.2 == k) = none := by
    apply List.find?_eq_none.mpr
    intro y hy
    have hsplit : y ∈ reg ∧ y.sequence.1 = fk := by
      simpa [getShortcutsForKey] using hy
    simp [hnone y hsplit.1 hsplit.2]
  have h2 := handleKeyDown_waiting_unknown reg st e k fk ts tid hfoc hc hm
    ha hkey hksh' hkesc' hw hel' hfind
  rw [h2]
  exact ⟨rfl, rfl, rfl, rfl, clearTimeoutRef_of_inv st hinv⟩

/-- Witness for the amended C7: Awaiting n, pressing x at 1500 ms shows the
unknown-sequence toast once and resets. -/
theorem unknown_second_key_rejected_witness :
    (handleKeyDown demoReg
      (handleKeyDown demoReg (initState demoRouter) (mkKey "n" 1000)).1
      (mkKey "x" 1500)).2.invoked = [] ∧
    (handleKeyDown demoReg
      (handleKeyDown demoReg (initState demoRouter) (mkKey "n" 1000)).1
      (mkKey "x" 1500)).2.toasts
      = [(1, .errorToast "Unbekannter Shortcut: N → X")] ∧
    (handleKeyDown demoReg
      (handleKeyDown demoReg (initState demoRouter) (mkKey "n" 1000)).1
      (mkKey "x" 1500)).1.sequenceState = .idle := by
  have h := unknown_second_key_rejected demoReg
    (handleKeyDown demoReg (initState demoRouter) (mkKey "n" 1000)).1
    (mkKey "x" 1500) "x" "n" 1000 0 rfl rfl rfl rfl rfl
    (by decide) (by decide) rfl
    (Or.inr ⟨0, "n", 1000, 0, rfl, rfl, rfl⟩)
    (by decide) (by decide)
  exact ⟨h.1, h.2.1, h.2.2.1⟩

/-- On any eligible key press that is neither Shift nor Escape-while-
waiting, the tracked double-tap timestamp is reset to 0. -/
theorem handleKeyDown_resets_shift (reg : Registry) (st : DState)
    (e : KeyEvent)
    (hfoc : isInputFocused e.activeElement = false)
    (hc : e.ctrlKey = false) (hm : e.metaKey = false) (ha : e.altKey = false)
    (hns : (lower e.key == "shift") = false)
    (hesc : ((lower e.key == "escape") && st.sequenceState.isWaiting)
      = false)
    (hpos : 0 < st.lastShiftPress) :
    (handleKeyDown reg st e).1.lastShiftPress = 0 := by
  have hlsp : (clearShift st).lastShiftPress = 0 := by
    unfold clearShift
    simp [hpos]
  unfold handleKeyDown
  simp only [hfoc, hc, hm, ha, hns, hesc, Bool.false_eq_true, if_false,
    Bool.or_self]
  split
  · split
    · simp [hlsp]
    · simp [hlsp]
  · split
    · simp [resetSequence, hlsp]
    · split
      · simp [hlsp]
      · simp [resetSequence, hlsp]

/-- States of the C4 counterexample trace: command-menu setter registered,
then n at 1000 ms (enters Awaiting), Shift at 1100 ms (tracked), Escape at
1150 ms (cancels the chord). -/
def ceShiftState0 : DState :=
  registerCommandMenu demoSetter (initState demoRouter)

def ceShiftState1 : DState :=
  (handleKeyDown demoReg ceShiftState0 (mkKey "n" 1000)).1

def ceShiftState2 : DState :=
  (handleKeyDown demoReg ceShiftState1 (mkKey "Shift" 1100)).1

def ceShiftState3 : DState :=
  (handleKeyDown demoReg ceShiftState2 (mkKey "Escape" 1150)).1

/-- C4 counterexample: after Shift at 1100 ms an eligible different key
(Escape, pressed at 1150 ms while the chord machine is Awaiting) does NOT
reset the tracked timestamp, and the Shift press at 1300 ms, inside the
original 300 ms window, still fires the search capability, contradicting
the claim that any intervening different-key press prevents this. -/
theorem double_tap_reset_counterexample :
    ceShiftState3.lastShiftPress = 1100 ∧
    (handleKeyDown demoReg ceShiftState3
      (mkKey "Shift" 1300)).2.actions = [UIAction.commandMenuSet true] ∧
    ((1300 : Int) - 1100 < DOUBLE_SHIFT_TIMEOUT) := by
  refine ⟨by decide, by decide, by decide⟩

/-- C4 amended: a second Shift press within DOUBLE_SHIFT_TIMEOUT (300 ms)
of the tracked previous press invokes the search capability exactly once
and resets the tracked timestamp to none; and any press of a different
eligible key resets the tracked timestamp — except Escape pressed while
the chord machine is Awaiting, which cancels the chord but leaves the
tracked timestamp, so a same-key press still inside the original 300 ms
window fires. -/
theorem double_tap_behaviour (reg : Registry) :
    (∀ (st : DState) (e : KeyEvent),
       isInputFocused e.activeElement = false → e.ctrlKey = false →
       e.metaKey = false → e.altKey = false → lower e.key = "shift" →
       0 < st.lastShiftPress →
       e.now - st.lastShiftPress < DOUBLE_SHIFT_TIMEOUT →
       (handleKeyDown reg st e).2.actions = st.caps.commandMenuOpen true ∧
       (handleKeyDown reg st e).2.invoked = [] ∧
       (handleKeyDown reg st e).1.lastShiftPress = 0 ∧
       (handleKeyDown reg st e).1.sequenceState = st.sequenceState) ∧
    (∀ (st : DState) (e : KeyEvent),
       isInputFocused e.activeElement = false → e.ctrlKey = false →
       e.metaKey = false → e.altKey = false →
       (lower e.key == "shift") = false →
       ((lower e.key == "escape") && st.sequenceState.isWaiting) = false →
       0 < st.lastShiftPress →
       (handleKeyDown reg st e).1.lastShiftPress = 0) := by
  constructor
  · intro st e hfoc hc hm ha hkey hpos hdt
    have h := handleKeyDown_shift_fire reg st e hfoc hc hm ha hkey hdt
    rw [h]
    exact ⟨rfl, rfl, rfl, rfl⟩
  · intro st e hfoc hc hm ha hns hesc hpos
    exact handleKeyDown_resets_shift reg st e hfoc hc hm ha hns hesc hpos

/-- Witness for the amended C4: Shift at 1000 ms then Shift at 1200 ms
fires the registered command-menu setter once and resets the timestamp. -/
theorem double_tap_behaviour_witness :
    (handleKeyDown demoReg
      (handleKeyDown demoReg ceShiftState0 (mkKey "Shift" 1000)).1
      (mkKey "Shift" 1200)).2.actions = [UIAction.commandMenuSet true] ∧
    (handleKeyDown demoReg
      (handleKeyDown demoReg ceShiftState0 (mkKey "Shift" 1000)).1
      (mkKey "Shift" 1200)).1.lastShiftPress = 0 := by
  have h := (double_tap_behaviour demoReg).1
    (handleKeyDown demoReg ceShiftState0 (mkKey "Shift" 1000)).1
    (mkKey "Shift" 1200) rfl rfl rfl rfl rfl (by decide) (by decide)
  exact ⟨h.1, h.2.2.1⟩

/-- Shape of every keydown transition with respect to the timer state:
either the timer fields are untouched, or the machine fully resets (idle,
ref cleared, the armed timer cancelled), or it arms a fresh timer from
idle. -/
theorem handleKeyDown_timer_shape (reg : Registry) (st : DState)
    (e : KeyEvent) :
    ((handleKeyDown reg st e).1.sequenceState = st.sequenceState ∧
     (handleKeyDown reg st e).1.pendingTimers = st.pendingTimers ∧
     (handleKeyDown reg st e).1.timeoutRef = st.timeoutRef) ∨
    ((handleKeyDown reg st e).1.sequenceState = .idle ∧
     (handleKeyDown reg st e).1.pendingTimers = clearTimeoutRef st ∧
     (handleKeyDown reg st e).1.timeoutRef = none) ∨
    (st.sequenceState = .idle ∧
     (handleKeyDown reg st e).1.pendingTimers
       = st.pendingTimers ++ [st.nextTimerId] ∧
     (handleKeyDown reg st e).1.timeoutRef = some st.nextTimerId ∧
     ∃ k tid, (handleKeyDown reg st e).1.sequenceState
       = .waiting k e.now tid) := by
  unfold handleKeyDown
  dsimp only
  split
  · exact Or.inl ⟨rfl, rfl, rfl⟩
  split
  · exact Or.inl ⟨rfl, rfl, rfl⟩
  split
  · exact Or.inr (Or.inl ⟨rfl, rfl, rfl⟩)
  split
  · split
    · exact Or.inl ⟨rfl, rfl, rfl⟩
    · exact Or.inl ⟨rfl, rfl, rfl⟩
  · split
    · rename_i heq
      split
      · exact Or.inr (Or.inr ⟨heq, rfl, rfl, lower e.key, st.nextToastId,
          rfl⟩)
      · exact Or.inl ⟨rfl, rfl, rfl⟩
    · split
      · exact Or.inr (Or.inl ⟨rfl, rfl, rfl⟩)
      · split
        · exact Or.inr (Or.inl ⟨rfl, rfl, rfl⟩)
        · exact Or.inr (Or.inl ⟨rfl, rfl, rfl⟩)

/-- The timer invariant is preserved by every keydown. -/
theorem timerInv_handleKeyDown (reg : Registry) (st : DState) (e : KeyEvent)
    (hinv : TimerInv st) : TimerInv (handleKeyDown reg st e).1 := by
  rcases handleKeyDown_timer_shape reg st e with
    ⟨h1, h2, h3⟩ | ⟨h1, h2, h3⟩ | ⟨h0, h2, h3, k, tid, h1⟩
  · exact timerInv_of_fields h1 h2 h3 hinv
  · left
    rw [h2]
    exact clearTimeoutRef_of_inv st hinv
  · right
    refine ⟨st.nextTimerId, k, e.now, tid, ?_, h3, h1⟩
    rw [h2, pending_nil_of_idle st hinv h0]
    rfl

/-- The timer invariant is preserved by a timer firing. -/
theorem timerInv_fireTimer (st : DState) (id : Nat) (hinv : TimerInv st) :
    TimerInv (fireTimer st id).1 := by
  unfold fireTimer
  split
  · rename_i hcont
    left
    show clearTimeoutRef
      { st with pendingTimers := st.pendingTimers.erase id } = []
    rcases hinv with h | ⟨t, fk, ts, tid, hp, hr, hs⟩
    · rw [h] at hcont
      simp at hcont
    · rw [hp] at hcont
      have hid : id = t := by simpa using hcont
      subst hid
      unfold clearTimeoutRef
      simp [hp, hr]
  · exact timerInv_of_fields rfl rfl rfl hinv

/-- C6: whenever the dispatcher leaves Awaiting (chord match, unknown
second key, Escape, or timeout) and on dispatcher teardown, the armed
timeout timer is cleared; and a timeout callback that runs after the state
has already left the Awaiting it was armed for is a no-op. In the source a
cancelled timer never runs at all, so a stale callback cannot exist: every
pending timer belongs to the current Awaiting (the invariant, preserved by
every step), and firing a non-pending timer id changes nothing. -/
theorem timer_discipline (reg : Registry) (st : DState) (e : KeyEvent)
    (id : Nat) (hinv : TimerInv st) :
    ((∃ fk ts tid, st.sequenceState = .waiting fk ts tid) →
      (handleKeyDown reg st e).1.sequenceState = .idle →
      (handleKeyDown reg st e).1.pendingTimers = [] ∧
      (handleKeyDown reg st e).1.timeoutRef = none) ∧
    (unmountCleanup st).pendingTimers = [] ∧
    (id ∉ st.pendingTimers → fireTimer st id = (st, noEff)) ∧
    (id ∈ st.pendingTimers → st.timeoutRef = some id ∧
      ∃ fk ts tid, st.sequenceState = .waiting fk ts tid) ∧
    TimerInv (handleKeyDown reg st e).1 ∧
    TimerInv (fireTimer st id).1 := by
  refine ⟨?_, ?_, ?_, ?_, timerInv_handleKeyDown reg st e hinv,
    timerInv_fireTimer st id hinv⟩
  · intro hw hidle
    rcases handleKeyDown_timer_shape reg st e with
      ⟨h1, h2, h3⟩ | ⟨h1, h2, h3⟩ | ⟨h0, h2, h3, k, tid, h1⟩
    · exfalso
      obtain ⟨fk, ts, tid, hwx⟩ := hw
      rw [hidle, hwx] at h1
      cases h1
    · exact ⟨by rw [h2]; exact clearTimeoutRef_of_inv st hinv, h3⟩
    · exfalso
      obtain ⟨fk, ts, tid, hwx⟩ := hw
      rw [hwx] at h0
      cases h0
  · show clearTimeoutRef st = []
    exact clearTimeoutRef_of_inv st hinv
  · intro hnm
    unfold fireTimer
    split
    · rename_i hcont
      exact absurd (by simpa using hcont) hnm
    · rfl
  · intro hm
    rcases hinv with h | ⟨t, fk, ts, tid, hp, hr, hs⟩
    · rw [h] at hm
      cases hm
    · rw [hp] at hm
      have hid : id = t := by simpa using hm
      subst hid
      exact ⟨hr, fk, ts, tid, hs⟩

/-- Witness for C6: from the concrete Awaiting n state, resolving the
chord clears the pending timer, and firing the non-pending timer id 7 is a
no-op. -/
theorem timer_discipline_witness :
    (handleKeyDown demoReg
      (handleKeyDown demoReg (initState demoRouter) (mkKey "n" 1000)).1
      (mkKey "c" 1500)).1.pendingTimers = [] ∧
    fireTimer
      (handleKeyDown demoReg (initState demoRouter) (mkKey "n" 1000)).1 7
      = ((handleKeyDown demoReg (initState demoRouter) (mkKey "n" 1000)).1,
         noEff) := by
  have h := timer_discipline demoReg
    (handleKeyDown demoReg (initState demoRouter) (mkKey "n" 1000)).1
    (mkKey "c" 1500) 7 (Or.inr ⟨0, "n", 1000, 0, rfl, rfl, rfl⟩)
  exact ⟨(h.1 ⟨"n", 1000, 0, rfl⟩ rfl).1, h.2.2.1 (by decide)⟩

/-- A keydown never changes the capability refs. -/
theorem handleKeyDown_caps (reg : Registry) (st : DState) (e : KeyEvent) :
    (handleKeyDown reg st e).1.caps = st.caps := by
  unfold handleKeyDown
  dsimp only
  split
  · rfl
  split
  · rfl
  split
  · rfl
  split
  · split
    · rfl
    · rfl
  · split
    · split
      · rfl
      · rfl
    · split
      · rfl
      · split
        · rfl
        · rfl

/-- A timer firing never changes the capability refs. -/
theorem fireTimer_caps (st : DState) (id : Nat) :
    (fireTimer st id).1.caps = st.caps := by
  unfold fireTimer
  split
  · rfl
  · rfl

/-- One dispatcher step never changes the capability refs. -/
theorem step_caps (reg : Registry) (st : DState) (ev : Ev) :
    (step reg st ev).1.caps = st.caps := by
  cases ev with
  | key e => exact handleKeyDown_caps reg st e
  | fire id => exact fireTimer_caps st id

/-- A run of dispatcher events never changes the capability refs. -/
theorem run_caps (reg : Registry) (evs : List Ev) :
    ∀ st : DState, (run reg st evs).caps = st.caps := by
  induction evs with
  | nil => intro st; rfl
  | cons ev rest ih =>
    intro st
    show (run reg (step reg st ev).1 rest).caps = st.caps
    rw [ih (step reg st ev).1, step_caps]

/-- Every context handed to a handler is the one built by
getShortcutContext from the state at the moment of the event. -/
theorem handleKeyDown_invokedWith (reg : Registry) (st : DState)
    (e : KeyEvent) :
    ∀ ctx ∈ (handleKeyDown reg st e).2.invokedWith,
      ctx = getShortcutContext st := by
  unfold handleKeyDown
  dsimp only
  split
  · intro ctx hmem; simp [noEff] at hmem
  split
  · intro ctx hmem; simp [noEff] at hmem
  split
  · intro ctx hmem; simp [noEff] at hmem
  split
  · split
    · intro ctx hmem; simp [noEff] at hmem
    · intro ctx hmem; simp [noEff] at hmem
  · split
    · split
      · intro ctx hmem; simp [noEff] at hmem
      · intro ctx hmem; simp [noEff] at hmem
    · split
      · intro ctx hmem; simp [noEff] at hmem
      · split
        · intro ctx hmem
          simp at hmem
          exact hmem
        · intro ctx hmem; simp [noEff] at hmem

/-- C9: for every handler invocation, the CapabilityBundle passed to the
handler is assembled at the moment of invocation from the most recently
registered setters: if a UI surface registers or overwrites a setter at
any time before the invocation, even after dispatcher mount, the handler
calls that latest setter, never an earlier captured one. -/
theorem capability_read_at_invocation (reg : Registry) :
    (∀ (st : DState) (e : KeyEvent),
       ∀ ctx ∈ (handleKeyDown reg st e).2.invokedWith,
         ctx = getShortcutContext st) ∧
    (∀ (st : DState) (f : Setter),
       (getShortcutContext (registerCommandMenu f st)).setCommandMenuOpen
         = f ∧
       (getShortcutContext (registerQuickFind f st)).setQuickFindOpen = f ∧
       (getShortcutContext
         (registerSequentialMode f st)).setSequentialModeOpen = f ∧
       (getShortcutContext
         (registerIdentityPicker f st)).setIdentityPickerOpen = f) ∧
    (∀ (st : DState) (evs : List Ev), (run reg st evs).caps = st.caps) ∧
    (∀ (st : DState) (f : Setter) (evs : List Ev) (e : KeyEvent),
       ∀ ctx ∈ (handleKeyDown reg
           (run reg (registerCommandMenu f st) evs) e).2.invokedWith,
         ctx.setCommandMenuOpen = f) := by
  refine ⟨handleKeyDown_invokedWith reg, fun st f => ⟨rfl, rfl, rfl, rfl⟩,
    fun st evs => run_caps reg evs st, ?_⟩
  intro st f evs e ctx hmem
  have h1 := handleKeyDown_invokedWith reg
    (run reg (registerCommandMenu f st) evs) e ctx hmem
  rw [h1]
  show (run reg (registerCommandMenu f st) evs).caps.commandMenuOpen = f
  rw [run_caps]
  rfl

/-- Witness for C9: after registering the demo setter and running the o
chord, the context handed to the handler holds exactly that setter. -/
theorem capability_read_at_invocation_witness :
    (getShortcutContext (registerCommandMenu demoSetter
      (initState demoRouter))).setCommandMenuOpen = demoSetter ∧
    ((handleKeyDown demoReg
        (run demoReg (registerCommandMenu demoSetter (initState demoRouter))
          [Ev.key (mkKey "o" 100)])
        (mkKey "s" 200)).2.invokedWith.map
      (fun ctx => ctx.setCommandMenuOpen)) = [demoSetter] := by
  refine ⟨rfl, ?_⟩
  have h := (capability_read_at_invocation demoReg).2.2.2
    (initState demoRouter) demoSetter [Ev.key (mkKey "o" 100)]
    (mkKey "s" 200)
  have hmem : getShortcutContext (run demoReg
      (registerCommandMenu demoSetter (initState demoRouter))
      [Ev.key (mkKey "o" 100)]) ∈
      (handleKeyDown demoReg
        (run demoReg (registerCommandMenu demoSetter (initState demoRouter))
          [Ev.key (mkKey "o" 100)])
        (mkKey "s" 200)).2.invokedWith :=
    List.Mem.head _
  have h2 := h _ hmem
  show [(getShortcutContext (run demoReg
      (registerCommandMenu demoSetter (initState demoRouter))
      [Ev.key (mkKey "o" 100)])).setCommandMenuOpen] = [demoSetter]
  rw [h2]

/-- C10: before any UI surface has registered a capability setter, each of
the four open-surface capabilities defaults to a no-op function, so a
chord or double-Shift gesture resolved before registration performs no
visible action and never throws because a capability is missing: the refs
are initialised with total no-op functions, so every capability call is
defined and returns no UI action. -/
theorem default_capabilities_noop (r : Router) (reg : Registry) :
    (initState r).caps.commandMenuOpen = noopSetter ∧
    (initState r).caps.quickFindOpen = noopSetter ∧
    (initState r).caps.sequentialModeOpen = noopSetter ∧
    (initState r).caps.identityPickerOpen = noopSetter ∧
    (∀ b, noopSetter b = []) ∧
    (∀ (st : DState) (e : KeyEvent),
       st.caps.commandMenuOpen = noopSetter →
       isInputFocused e.activeElement = false → e.ctrlKey = false →
       e.metaKey = false → e.altKey = false → lower e.key = "shift" →
       (handleKeyDown reg st e).2.actions = [] ∧
       (handleKeyDown reg st e).2.invoked = []) := by
  refine ⟨rfl, rfl, rfl, rfl, fun b => rfl, ?_⟩
  intro st e hcap hfoc hc hm ha hkey
  by_cases hdt : e.now - st.lastShiftPress < DOUBLE_SHIFT_TIMEOUT
  · rw [handleKeyDown_shift_fire reg st e hfoc hc hm ha hkey hdt]
    constructor
    · show st.caps.commandMenuOpen true = []
      rw [hcap]
      rfl
    · rfl
  · rw [handleKeyDown_shift_arm reg st e hfoc hc hm ha hkey hdt]
    exact ⟨rfl, rfl⟩

/-- Witness for C10: a double Shift from the freshly mounted dispatcher,
before any registration, produces no UI action. -/
theorem default_capabilities_noop_witness :
    (handleKeyDown demoReg
      (handleKeyDown demoReg (initState demoRouter) (mkKey "Shift" 1000)).1
      (mkKey "Shift" 1100)).2.actions = [] :=
  ((default_capabilities_noop demoRouter demoReg).2.2.2.2.2
    (handleKeyDown demoReg (initState demoRouter) (mkKey "Shift" 1000)).1
    (mkKey "Shift" 1100) rfl rfl rfl rfl rfl rfl).1

end LlkaShortcuts
